import Mathlib

/-!
Shallow embedding of the vscode-extension-rest-webview correlation/transport
layer: the shared message protocol and CorrelationManager
(packages/shared: protocol/types.ts, utils/correlation.ts), the server-side
emulated response object and transport server
(packages/server/src/transport/vscode-transport-server.ts), and the
webview-side HTTP client (packages/client/src/http-client/vscode-http-client.ts).
JavaScript objects become Lean structures, JS `Map`/plain-object maps become
insertion-ordered association lists with JS `Map` semantics, callbacks become
opaque numeric tokens whose invocations are recorded as events, and the
host-provided channel (`webview.postMessage` / `window message events`)
becomes an explicit list of posted envelopes.
-/

namespace VSCodeRest

/-- JavaScript runtime value, as far as the protocol layer observes it:
`undefined`, `null`, booleans, numbers (the code paths exercised here only
use integer numerals), strings, arrays and plain objects. -/
inductive JSVal where
  | undef
  | jsNull
  | bool (b : Bool)
  | num (n : Int)
  | str (s : String)
  | arr (xs : List JSVal)
  | obj (fields : List (String × JSVal))
deriving Repr

/-- Model of a JS `Map<string, V>` / plain-object string map: an
insertion-ordered association list. Lookup returns the first binding. -/
def mapGet {α : Type} (m : List (String × α)) (k : String) : Option α :=
  match m with
  | [] => none
  | (k', v) :: rest => if k' = k then some v else mapGet rest k

/-- JS `Map.set` / property assignment: replace the binding in place if the
key exists, otherwise append it. -/
def mapSet {α : Type} (m : List (String × α)) (k : String) (v : α) :
    List (String × α) :=
  match m with
  | [] => [(k, v)]
  | (k', v') :: rest =>
      if k' = k then (k, v) :: rest else (k', v') :: mapSet rest k v

/-- JS `Map.delete` / the `delete` operator: remove the binding for the key.
A JS `Map` (and a plain object) never holds two bindings for one key, so
removing every binding with that key is observationally the same. -/
def mapErase {α : Type} (m : List (String × α)) (k : String) :
    List (String × α) :=
  match m with
  | [] => []
  | (k', v') :: rest =>
      if k' = k then mapErase rest k else (k', v') :: mapErase rest k

/-- Double-quote character (written via its code point so that character
literals stay unambiguous). -/
def chQuote : Char := Char.ofNat 34

/-- Backslash character. -/
def chBackslash : Char := Char.ofNat 92

/-- Opening curly brace character. -/
def chLBrace : Char := Char.ofNat 123

/-- Closing curly brace character. -/
def chRBrace : Char := Char.ofNat 125

/-- JSON insignificant whitespace, skipped between tokens. -/
def skipWs : List Char → List Char
  | [] => []
  | c :: rest =>
      if c = ' ' ∨ c = '\t' ∨ c = '\n' ∨ c = '\r' then skipWs rest
      else c :: rest

/-- Body of a JSON string literal after the opening quote: the decoded
characters and the remaining input after the closing quote. Supports the
escapes needed by this development. -/
def parseStrChars : List Char → Option (List Char × List Char)
  | [] => none
  | c :: rest =>
      if c = chQuote then some ([], rest)
      else if c = chBackslash then
        match rest with
        | [] => none
        | e :: rest2 =>
            let esc : Option Char :=
              if e = chQuote then some chQuote
              else if e = chBackslash then some chBackslash
              else if e = '/' then some '/'
              else if e = 'n' then some '\n'
              else if e = 't' then some '\t'
              else if e = 'r' then some '\r'
              else none
            match esc with
            | none => none
            | some ch =>
                match parseStrChars rest2 with
                | none => none
                | some (s, r) => some (ch :: s, r)
      else
        match parseStrChars rest with
        | none => none
        | some (s, r) => some (c :: s, r)

/-- Leading decimal digits of the input, with the remaining input. -/
def parseDigits : List Char → List Char × List Char
  | [] => ([], [])
  | c :: rest =>
      if c.isDigit then
        let (d, r) := parseDigits rest
        (c :: d, r)
      else ([], c :: rest)

/-- Numeric value of a digit string. -/
def digitsToNat (ds : List Char) : Nat :=
  ds.foldl (fun acc c => acc * 10 + (c.toNat - 48)) 0

/-- JSON integer numeral (optional minus sign, digits). Fractions and
exponents are outside this model; parsing them fails. -/
def parseNum (cs : List Char) : Option (Int × List Char) :=
  let (neg, cs1) :=
    match cs with
    | '-' :: r => (true, r)
    | _ => (false, cs)
  let (ds, r) := parseDigits cs1
  if ds = [] then none
  else
    match r with
    | '.' :: _ => none
    | 'e' :: _ => none
    | 'E' :: _ => none
    | _ =>
        let n : Int := Int.ofNat (digitsToNat ds)
        some (if neg then -n else n, r)

mutual

/-- One JSON value, fuel-bounded recursive descent. Together with
`jsonParse` below this is the model of the host's built-in `JSON.parse`
(an environment primitive, not repository code), restricted to integer
numerals and the escape set of `parseStrChars`; a failure of the model
corresponds to `JSON.parse` throwing. -/
def parseVal : Nat → List Char → Option (JSVal × List Char)
  | 0, _ => none
  | Nat.succ fuel, cs =>
      match skipWs cs with
      | [] => none
      | c :: rest =>
          if c = 'n' then
            match rest with
            | 'u' :: 'l' :: 'l' :: r => some (.jsNull, r)
            | _ => none
          else if c = 't' then
            match rest with
            | 'r' :: 'u' :: 'e' :: r => some (.bool true, r)
            | _ => none
          else if c = 'f' then
            match rest with
            | 'a' :: 'l' :: 's' :: 'e' :: r => some (.bool false, r)
            | _ => none
          else if c = chQuote then
            match parseStrChars rest with
            | some (s, r) => some (.str (String.mk s), r)
            | none => none
          else if c = '[' then
            match skipWs rest with
            | ']' :: r => some (.arr [], r)
            | cs2 =>
                match parseArrItems fuel cs2 with
                | some (vs, r) => some (.arr vs, r)
                | none => none
          else if c = chLBrace then
            match skipWs rest with
            | d :: r =>
                if d = chRBrace then some (.obj [], r)
                else
                  match parseObjItems fuel (d :: r) with
                  | some (fs, r2) => some (.obj fs, r2)
                  | none => none
            | [] => none
          else if c = '-' ∨ c.isDigit then
            match parseNum (c :: rest) with
            | some (n, r) => some (.num n, r)
            | none => none
          else none

/-- Comma-separated JSON array items up to the closing bracket. -/
def parseArrItems : Nat → List Char → Option (List JSVal × List Char)
  | 0, _ => none
  | Nat.succ fuel, cs =>
      match parseVal fuel cs with
      | none => none
      | some (v, r) =>
          match skipWs r with
          | ',' :: r2 =>
              match parseArrItems fuel r2 with
              | some (vs, r3) => some (v :: vs, r3)
              | none => none
          | ']' :: r2 => some ([v], r2)
          | _ => none

/-- Comma-separated JSON object members up to the closing brace. -/
def parseObjItems : Nat → List Char → Option (List (String × JSVal) × List Char)
  | 0, _ => none
  | Nat.succ fuel, cs =>
      match skipWs cs with
      | c :: r =>
          if c = chQuote then
            match parseStrChars r with
            | none => none
            | some (key, r2) =>
                match skipWs r2 with
                | ':' :: r3 =>
                    match parseVal fuel r3 with
                    | none => none
                    | some (v, r4) =>
                        match skipWs r4 with
                        | ',' :: r5 =>
                            match parseObjItems fuel r5 with
                            | some (fs, r6) =>
                                some ((String.mk key, v) :: fs, r6)
                            | none => none
                        | d :: r5 =>
                            if d = chRBrace then
                              some ([(String.mk key, v)], r5)
                            else none
                        | [] => none
                | _ => none
          else none
      | [] => none

end

/-- Model of the host `JSON.parse` builtin: parse one value and require
only whitespace to remain; `none` corresponds to `JSON.parse` throwing. -/
def jsonParse (s : String) : Option JSVal :=
  match parseVal (2 * (s.length + 1)) s.data with
  | some (v, r) => if skipWs r = [] then some v else none
  | none => none

theorem mapGet_mapSet_self {α : Type} (m : List (String × α)) (k : String)
    (v : α) : mapGet (mapSet m k v) k = some v := by
  induction m with
  | nil => simp [mapSet, mapGet]
  | cons hd tl ih =>
      obtain ⟨k', v'⟩ := hd
      by_cases h : k' = k
      · simp [mapSet, mapGet, h]
      · simp [mapSet, mapGet, h, ih]

theorem mapGet_mapErase_self {α : Type} (m : List (String × α)) (k : String) :
    mapGet (mapErase m k) k = none := by
  induction m with
  | nil => simp [mapErase, mapGet]
  | cons hd tl ih =>
      obtain ⟨k', v'⟩ := hd
      by_cases h : k' = k
      · simp [mapErase, h, ih]
      · simp [mapErase, mapGet, h, ih]

/-- Wire envelope, from packages/shared protocol `types.ts` interface
`MessageProtocol`: every field beyond `id`, `type` and `timestamp` is
optional on the wire. `body` uses `JSVal.undef` for an absent body, matching
the JavaScript representation. -/
structure MessageProtocol where
  id : String
  type : String
  method : Option String := none
  url : Option String := none
  headers : Option (List (String × String)) := none
  body : JSVal := .undef
  status : Option Int := none
  error : Option String := none
  instanceId : Option String := none
  timestamp : Int := 0
deriving Repr

/-- Type guard `isRequestMessage` from `types.ts`: tag `request` with a
string `method` and `url` present (the `typeof ... === 'string'` checks). -/
def isRequestMessage (m : MessageProtocol) : Bool :=
  m.type = "request" && m.method.isSome && m.url.isSome

/-- Type guard `isResponseMessage` from `types.ts`: tag `response` with a
numeric `status` present. -/
def isResponseMessage (m : MessageProtocol) : Bool :=
  m.type = "response" && m.status.isSome

/-- Type guard `isErrorMessage` from `types.ts`: tag `error` with a string
`error` and a numeric `status` present. -/
def isErrorMessage (m : MessageProtocol) : Bool :=
  m.type = "error" && m.error.isSome && m.status.isSome

/-- Entry of `CorrelationManager.pendingRequests` (interface
`PendingRequest` in utils/correlation.ts). The `resolve`/`reject` callbacks
are opaque JavaScript closures; they are modelled as numeric tokens whose
invocations the operations report as `CbEvent`s. `timeoutSet` records
whether a `setTimeout` handle was stored on the entry. -/
structure PendingRequest where
  id : String
  timestamp : Int
  resolveCb : Nat
  rejectCb : Nat
  timeoutSet : Bool
deriving Repr

/-- Observable callback invocation: `resolveCall cb resp` is the manager
calling a tracked `resolve(response)` callback, `rejectCall cb err` a
tracked `reject(error)` callback. The `process.nextTick` deferral in the
source only decouples the call from the caller's stack; the events appear
in scheduling order. -/
inductive CbEvent where
  | resolveCall (cb : Nat) (resp : MessageProtocol)
  | rejectCall (cb : Nat) (err : MessageProtocol)
deriving Repr

/-- State of `CorrelationManager` (utils/correlation.ts): the pending map,
the constructor's default timeout, and the `disposed` flag. -/
structure CorrelationManager where
  pendingRequests : List (String × PendingRequest) := []
  defaultTimeout : Int := 30000
  disposed : Bool := false
deriving Repr

/-- Error envelope built by `addPendingRequest` when the manager is already
disposed. -/
def disposedError (id : String) (now : Int) : MessageProtocol :=
  { id := id, type := "error",
    error := some "Correlation manager has been disposed",
    status := some 503, timestamp := now }

/-- Error envelope built inside the `setTimeout` callback of
`addPendingRequest`. -/
def requestTimeoutError (id : String) (now : Int) : MessageProtocol :=
  { id := id, type := "error", error := some "Request timeout",
    status := some 408, timestamp := now }

/-- Error envelope built by `clearAllRequests`; its `id` field is mutated
in the rejection loop (see `clearAllRequests`). -/
def connectionClosedError (id : String) (now : Int) : MessageProtocol :=
  { id := id, type := "error", error := some "Connection closed",
    status := some 503, timestamp := now }

/-- `CorrelationManager.addPendingRequest(id, resolve, reject, timeout?)`.
If disposed, immediately rejects with the disposed error and tracks
nothing. Otherwise stores the entry; a timeout handle is set up when the
effective timeout (`timeout ?? defaultTimeout`) is positive — the scheduled
closure itself is `fireRequestTimeout` below. -/
def addPendingRequest (m : CorrelationManager) (id : String)
    (resolveCb rejectCb : Nat) (timeout : Option Int) (now : Int) :
    CorrelationManager × List CbEvent :=
  if m.disposed then
    (m, [.rejectCall rejectCb (disposedError id now)])
  else
    let timeoutMs := timeout.getD m.defaultTimeout
    let req : PendingRequest :=
      { id := id, timestamp := now, resolveCb := resolveCb,
        rejectCb := rejectCb, timeoutSet := timeoutMs > 0 }
    ({ m with pendingRequests := mapSet m.pendingRequests id req }, [])

/-- Private `CorrelationManager.clearRequest(id)`: cancel the entry's
timeout handle if any and delete it from the map. -/
def clearRequest (m : CorrelationManager) (id : String) :
    CorrelationManager :=
  { m with pendingRequests := mapErase m.pendingRequests id }

/-- `CorrelationManager.resolveRequest(id, response)`: `false` without
effect when disposed or when the id is not pending; otherwise removes the
entry (cancelling its timeout) and invokes its resolve callback on the next
tick, returning `true`. -/
def resolveRequest (m : CorrelationManager) (id : String)
    (response : MessageProtocol) :
    CorrelationManager × Bool × List CbEvent :=
  if m.disposed then (m, false, [])
  else
    match mapGet m.pendingRequests id with
    | none => (m, false, [])
    | some req =>
        (clearRequest m id, true, [.resolveCall req.resolveCb response])

/-- `CorrelationManager.rejectRequest(id, error)`: symmetric to
`resolveRequest`, invoking the reject callback. -/
def rejectRequest (m : CorrelationManager) (id : String)
    (error : MessageProtocol) :
    CorrelationManager × Bool × List CbEvent :=
  if m.disposed then (m, false, [])
  else
    match mapGet m.pendingRequests id with
    | none => (m, false, [])
    | some req =>
        (clearRequest m id, true, [.rejectCall req.rejectCb error])

/-- Body of the `setTimeout` closure scheduled by `addPendingRequest`: when
the timer fires it calls `rejectRequest` with the `Request timeout`
(status 408) error. -/
def fireRequestTimeout (m : CorrelationManager) (id : String) (now : Int) :
    CorrelationManager × Bool × List CbEvent :=
  rejectRequest m id (requestTimeoutError id now)

/-- `CorrelationManager.clearAllRequests()`: a no-op once disposed;
otherwise sets `disposed`, snapshots and clears the pending map, and defers
one rejection per snapshot entry to the next tick. The source mutates the
`id` field of one shared error object inside the loop, so by the time the
deferred callbacks run every one of them observes the id written last —
the id of the final snapshot entry (or the initial `''` if none). -/
def clearAllRequests (m : CorrelationManager) (now : Int) :
    CorrelationManager × List CbEvent :=
  if m.disposed then (m, [])
  else
    let lastId := (m.pendingRequests.map Prod.fst).getLastD ""
    let events := m.pendingRequests.map
      (fun p => CbEvent.rejectCall p.2.rejectCb (connectionClosedError lastId now))
    ({ m with disposed := true, pendingRequests := [] }, events)

/-- `CorrelationManager.getPendingCount()`: `0` once disposed. -/
def getPendingCount (m : CorrelationManager) : Nat :=
  if m.disposed then 0 else m.pendingRequests.length

/-- Model of JavaScript `String.prototype.toLowerCase` on the ASCII range
(the only range header names use here). -/
def lowerChar (c : Char) : Char :=
  if 65 ≤ c.toNat ∧ c.toNat ≤ 90 then Char.ofNat (c.toNat + 32) else c

/-- Lower-casing of a header name, per `name.toLowerCase()` in the source. -/
def toLowerCase (s : String) : String := String.mk (s.data.map lowerChar)

/-- State of the server-side mock response `VSCodeHttpResponse`
(vscode-transport-server.ts). Body chunks are the strings handlers pass to
`write`/`end` (`_body.join('')` concatenates them). The webview channel the
response posts to is passed explicitly to `srvEnd`. -/
structure SrvResponse where
  statusCode : Int := 200
  statusMessage : String := "OK"
  headers : List (String × String) := []
  headersSent : Bool := false
  finished : Bool := false
  body : List String := []
  correlationId : String
  instanceId : String
  disposed : Bool := false
  responseSent : Bool := false
deriving Repr

/-- Constructor `new VSCodeHttpResponse(correlationId, webview, instanceId)`. -/
def mkSrvResponse (correlationId : String) (instanceId : String) :
    SrvResponse :=
  { correlationId := correlationId, instanceId := instanceId }

/-- `VSCodeHttpResponse.setHeader(name, value)`: silently ignored once
headers are sent or the object is disposed; otherwise stores under the
lower-cased name. -/
def srvSetHeader (r : SrvResponse) (name value : String) : SrvResponse :=
  if r.headersSent || r.disposed then r
  else { r with headers := mapSet r.headers (toLowerCase name) value }

/-- `VSCodeHttpResponse.getHeader(name)`. -/
def srvGetHeader (r : SrvResponse) (name : String) : Option String :=
  mapGet r.headers (toLowerCase name)

/-- `VSCodeHttpResponse.removeHeader(name)`: guarded only by the disposed
flag — when not disposed it deletes the lower-cased name, headers sent or
not. -/
def srvRemoveHeader (r : SrvResponse) (name : String) : SrvResponse :=
  if !r.disposed then { r with headers := mapErase r.headers (toLowerCase name) }
  else r

/-- `VSCodeHttpResponse.writeHead(statusCode, statusMessage?, headers?)`:
silently ignored once headers are sent, the object is disposed, or the
response was already sent; otherwise records status and merges the extra
headers (`Object.assign`, keys as given) and marks headers sent. -/
def srvWriteHead (r : SrvResponse) (statusCode : Int)
    (statusMessage : Option String) (headers : Option (List (String × String))) :
    SrvResponse :=
  if r.headersSent || r.disposed || r.responseSent then r
  else
    let r1 := { r with statusCode := statusCode }
    let r2 :=
      match statusMessage with
      | some sm => { r1 with statusMessage := sm }
      | none => r1
    let r3 :=
      match headers with
      | some hs => { r2 with
          headers := hs.foldl
            (fun acc (kv : String × String) => mapSet acc kv.1 kv.2)
            r2.headers }
      | none => r2
    { r3 with headersSent := true }

/-- `VSCodeHttpResponse.write(chunk)`: returns `false` without effect once
finished, disposed or sent; otherwise marks headers sent and appends the
chunk to the body buffer. -/
def srvWrite (r : SrvResponse) (chunk : String) : SrvResponse × Bool :=
  if r.finished || r.disposed || r.responseSent then (r, false)
  else ({ r with headersSent := true, body := r.body ++ [chunk] }, true)

/-- Model of JavaScript `String.prototype.startsWith` (an environment
builtin): character-list prefix test. -/
def strStartsWith (s pre : String) : Bool :=
  pre.data.isPrefixOf s.data

/-- Private `VSCodeHttpResponse._combineBody()`: join the buffered chunks;
if the result begins with a curly brace or a bracket, try `JSON.parse`,
falling back to the raw string when parsing throws. -/
def combineBody (chunks : List String) : JSVal :=
  if chunks.length = 0 then .undef
  else
    let combined := String.join chunks
    if strStartsWith combined "\x7b" || strStartsWith combined "[" then
      match jsonParse combined with
      | some v => v
      | none => .str combined
    else .str combined

/-- Response envelope that `end` assembles and posts: accumulated status
and headers, combined body when any chunk was buffered, and the owning
instance id when non-empty (`...(this._instanceId && { instanceId })`). -/
def srvResponseMessage (r : SrvResponse) (now : Int) : MessageProtocol :=
  { id := r.correlationId, type := "response",
    status := some r.statusCode, headers := some r.headers,
    body := if r.body.length > 0 then combineBody r.body else .undef,
    timestamp := now,
    instanceId := if r.instanceId = "" then none else some r.instanceId }

/-- `VSCodeHttpResponse.end(chunk?)`: returns without effect once finished,
disposed or already sent; otherwise marks the response sent, appends the
trailing chunk if given, marks headers sent and finished, and posts the
assembled response envelope on the webview channel (`postMessage` failures
are swallowed by the source's try/catch; the model takes the successful
post). -/
def srvEnd (r : SrvResponse) (chunk : Option String) (now : Int)
    (channel : List MessageProtocol) :
    SrvResponse × List MessageProtocol :=
  if r.finished || r.disposed || r.responseSent then (r, channel)
  else
    let r1 := { r with responseSent := true }
    let r2 :=
      match chunk with
      | some c => { r1 with body := r1.body ++ [c] }
      | none => r1
    let r3 := { r2 with headersSent := true, finished := true }
    (r3, channel ++ [srvResponseMessage r3 now])

/-- `VSCodeHttpResponse.dispose()`: idempotent; marks disposed and
finished. -/
def srvDispose (r : SrvResponse) : SrvResponse :=
  if r.disposed then r
  else { r with disposed := true, finished := true }

/-- Repeated `end(chunk)` calls: fold a list of (chunk, time) invocations
over an adapter/channel pair. -/
def srvEndIter (start : SrvResponse × List MessageProtocol)
    (calls : List (Option String × Int)) :
    SrvResponse × List MessageProtocol :=
  calls.foldl (fun p c => srvEnd p.1 c.1 c.2 p.2) start

/-- Observable effect of the transport server's message handler:
construction of a request/response adapter pair and emission of the
`request` event that carries it (the correlation id identifies the pair). -/
inductive ServerEvent where
  | emitRequest (correlationId : String)
deriving Repr, DecidableEq

/-- State of `VSCodeHttpTransportServer` (vscode-transport-server.ts). The
`_pendingResponses` set of in-flight response adapters is modelled by their
correlation ids. The `webviewServerRegistry` lookup the handler performs is
summarised by the flag passed to `serverHandleMessage`: whether the
registered server for this webview exists, is a different instance, and is
not disposed. -/
structure TransportServer where
  listening : Bool := false
  disposed : Bool := false
  messageHandlerLock : Bool := false
  pendingResponses : List String := []
  instanceId : String
deriving Repr

/-- Private `VSCodeHttpTransportServer._handleMessage(message)`: bail out
under the reentrancy lock, when disposed or not listening; ignore anything
that is not a well-formed request envelope; yield to a different live
registered server; otherwise take the lock, construct the
request/response adapter pair, track the response in the in-flight set,
emit the `request` event, and release the lock. The envelope's
`instanceId` field is never consulted. (The `catch` branch that posts a
500 error envelope is unreachable in this model: none of the constructors
in the `try` block throw.) -/
def serverHandleMessage (s : TransportServer) (otherRegisteredAlive : Bool)
    (m : MessageProtocol) : TransportServer × List ServerEvent :=
  if s.messageHandlerLock || s.disposed || !s.listening then (s, [])
  else if !isRequestMessage m then (s, [])
  else if otherRegisteredAlive then (s, [])
  else
    ({ s with pendingResponses := s.pendingResponses ++ [m.id] },
     [.emitRequest m.id])

/-- JavaScript truthiness of the optional `instanceId` field: an absent
property and the empty string are both falsy. -/
def truthyId : Option String → Bool
  | none => false
  | some s => s ≠ ""

/-- State of `VSCodeHttpClient` (vscode-http-client.ts) as its message
handler observes it. The module-level `primaryClient` variable is
summarised by the two flags passed to `clientHandleMessage`: whether this
client is the primary, and whether a primary exists and is not disposed. -/
structure HttpClient where
  disposed : Bool := false
  instanceId : String
  correlationManager : CorrelationManager := {}
deriving Repr

/-- Private `VSCodeHttpClient._handleMessage(message)`: bail out when
disposed; when the envelope's `instanceId` is truthy and differs from this
client's id, return (not for this instance); when it is falsy and a
different live primary client exists, return (let the primary handle it);
otherwise forward response envelopes to `resolveRequest` and error
envelopes to `rejectRequest`, ignoring everything else. -/
def clientHandleMessage (c : HttpClient) (isPrimary primaryAlive : Bool)
    (m : MessageProtocol) : HttpClient × List CbEvent :=
  if c.disposed then (c, [])
  else if truthyId m.instanceId && m.instanceId != some c.instanceId then
    (c, [])
  else if !truthyId m.instanceId && !isPrimary && primaryAlive then (c, [])
  else if isResponseMessage m then
    let r := resolveRequest c.correlationManager m.id m
    ({ c with correlationManager := r.1 }, r.2.2)
  else if isErrorMessage m then
    let r := rejectRequest c.correlationManager m.id m
    ({ c with correlationManager := r.1 }, r.2.2)
  else (c, [])

/-- Result of the client response's `json()`: either the produced value or
the message of the thrown error (an async method's rejection). -/
inductive JsonOutcome where
  | ok (v : JSVal)
  | thrown (msg : String)
deriving Repr

/-- JavaScript `typeof v === 'object'` on the values the client body can
hold (`null`, arrays and plain objects answer `'object'`). -/
def jsTypeofIsObject : JSVal → Bool
  | .jsNull => true
  | .arr _ => true
  | .obj _ => true
  | _ => false

/-- JavaScript string coercion applied by `JSON.parse` to a non-string
argument. -/
def jsToString : JSVal → String
  | .str s => s
  | .num n => toString n
  | .bool true => "true"
  | .bool false => "false"
  | .jsNull => "null"
  | .undef => "undefined"
  | .arr _ => ""
  | .obj _ => ""

/-- Minimal escaping for the `JSON.stringify` model below. -/
def escapeJsonChars (s : String) : String :=
  String.mk (s.data.foldr
    (fun c acc =>
      (if c = chQuote then [chBackslash, chQuote]
       else if c = chBackslash then [chBackslash, chBackslash]
       else [c]) ++ acc)
    [])

mutual

/-- Model of the host `JSON.stringify` builtin on defined values (the
client only reaches it with a non-`undefined`, non-`null` body). -/
def jsonStringify : JSVal → String
  | .undef => ""
  | .jsNull => "null"
  | .bool true => "true"
  | .bool false => "false"
  | .num n => toString n
  | .str s => String.mk [chQuote] ++ escapeJsonChars s ++ String.mk [chQuote]
  | .arr xs => "[" ++ stringifyItems xs ++ "]"
  | .obj fs => String.mk [chLBrace] ++ stringifyFields fs ++ String.mk [chRBrace]

/-- Comma-joined stringified array items. -/
def stringifyItems : List JSVal → String
  | [] => ""
  | [x] => jsonStringify x
  | x :: y :: xs => jsonStringify x ++ "," ++ stringifyItems (y :: xs)

/-- Comma-joined stringified object members. -/
def stringifyFields : List (String × JSVal) → String
  | [] => ""
  | [(k, v)] =>
      String.mk [chQuote] ++ escapeJsonChars k ++ String.mk [chQuote] ++ ":"
        ++ jsonStringify v
  | (k, v) :: f :: fs =>
      String.mk [chQuote] ++ escapeJsonChars k ++ String.mk [chQuote] ++ ":"
        ++ jsonStringify v ++ "," ++ stringifyFields (f :: fs)

end

/-- State of the client-side fetch-like `VSCodeHttpResponse`
(vscode-http-client.ts): status, derived fields, and the stored `_body`. -/
structure ClientHttpResponse where
  status : Int
  statusText : String
  headers : List (String × String)
  ok : Bool
  url : String
  body : JSVal
deriving Repr

/-- Status-text table `_getStatusText` of the client response. -/
def getStatusText (status : Int) : String :=
  if status = 200 then "OK"
  else if status = 201 then "Created"
  else if status = 202 then "Accepted"
  else if status = 204 then "No Content"
  else if status = 400 then "Bad Request"
  else if status = 401 then "Unauthorized"
  else if status = 403 then "Forbidden"
  else if status = 404 then "Not Found"
  else if status = 405 then "Method Not Allowed"
  else if status = 408 then "Request Timeout"
  else if status = 409 then "Conflict"
  else if status = 422 then "Unprocessable Entity"
  else if status = 500 then "Internal Server Error"
  else if status = 501 then "Not Implemented"
  else if status = 502 then "Bad Gateway"
  else if status = 503 then "Service Unavailable"
  else "Unknown"

/-- Constructor `new VSCodeHttpResponse(message, url)` of the client
response (`message` is a response envelope, so its `status` is present). -/
def mkClientHttpResponse (message : MessageProtocol) (url : String) :
    ClientHttpResponse :=
  let st := message.status.getD 0
  { status := st, statusText := getStatusText st,
    headers := message.headers.getD [], ok := 200 ≤ st && st < 300,
    url := url, body := message.body }

/-- `VSCodeHttpResponse.json()` (client side): throws `Response body is
empty` on an `undefined` or `null` body; returns object-typed bodies as
they are; otherwise `JSON.parse`s the body, converting a parse throw into
`Response is not valid JSON`. The response state is returned unchanged —
the method only reads `_body`. -/
def clientJson (r : ClientHttpResponse) : JsonOutcome × ClientHttpResponse :=
  match r.body with
  | .undef => (.thrown "Response body is empty", r)
  | .jsNull => (.thrown "Response body is empty", r)
  | b =>
      if jsTypeofIsObject b then (.ok b, r)
      else
        match jsonParse (jsToString b) with
        | some v => (.ok v, r)
        | none => (.thrown "Response is not valid JSON", r)

/-- `VSCodeHttpResponse.text()` (client side): the empty string on an
`undefined` or `null` body, the body itself when it is a string, and
`JSON.stringify` of it otherwise. The response state is returned
unchanged. -/
def clientText (r : ClientHttpResponse) : String × ClientHttpResponse :=
  match r.body with
  | .undef => ("", r)
  | .jsNull => ("", r)
  | .str s => (s, r)
  | b => (jsonStringify b, r)

/-- Concrete pending entry used by concrete instantiations below. -/
def wReq : PendingRequest :=
  { id := "r1", timestamp := 0, resolveCb := 10, rejectCb := 11,
    timeoutSet := true }

/-- Concrete manager tracking `wReq`. -/
def wManager : CorrelationManager := { pendingRequests := [("r1", wReq)] }

/-- Concrete response envelope for id `r1`. -/
def wResp : MessageProtocol :=
  { id := "r1", type := "response", status := some 200 }

/-- Concrete error envelope for id `r1`. -/
def wErr : MessageProtocol :=
  { id := "r1", type := "error", error := some "boom", status := some 500 }

/-- Concrete manager with two pending entries with distinct callbacks. -/
def w5Manager : CorrelationManager :=
  { pendingRequests :=
      [("a", { id := "a", timestamp := 0, resolveCb := 1, rejectCb := 2,
               timeoutSet := false }),
       ("b", { id := "b", timestamp := 0, resolveCb := 3, rejectCb := 4,
               timeoutSet := true })] }

/-- Concrete listening transport server with instance id `server_self`. -/
def c1Server : TransportServer :=
  { listening := true, instanceId := "server_self" }

/-- Concrete well-formed request envelope tagged with a foreign instance
id. -/
def c1Request : MessageProtocol :=
  { id := "req1", type := "request", method := some "GET", url := some "/x",
    instanceId := some "other_server", timestamp := 5 }

/-- Concrete fresh server response adapter with one buffered chunk. -/
def w4Response : SrvResponse :=
  { correlationId := "r4", instanceId := "srv_a", body := ["hello"] }

/-- Concrete server response adapter whose headers were already sent. -/
def c6Response : SrvResponse :=
  { correlationId := "r6", instanceId := "srv_b", headersSent := true,
    headers := [("x-a", "1")] }

/-- Concrete disposed server response adapter. -/
def w6Disposed : SrvResponse :=
  { correlationId := "r6d", instanceId := "srv_b", disposed := true,
    headers := [("x-a", "1")] }

/-- Concrete fresh server response adapter with an empty buffer. -/
def w7Response : SrvResponse :=
  { correlationId := "r7", instanceId := "srv_c" }

/-- Concrete primary client with one pending entry. -/
def c8Client : HttpClient :=
  { instanceId := "client_a",
    correlationManager :=
      { pendingRequests :=
          [("r1", { id := "r1", timestamp := 0, resolveCb := 0,
                    rejectCb := 1, timeoutSet := false })] } }

/-- Concrete response envelope carrying a present but empty `instanceId`. -/
def c8Message : MessageProtocol :=
  { id := "r1", type := "response", status := some 200,
    instanceId := some "", timestamp := 9 }

/-- Concrete response envelope tagged for a different client. -/
def w8Message : MessageProtocol :=
  { id := "r1", type := "response", status := some 200,
    instanceId := some "client_b", timestamp := 9 }

/-- Concrete client with one pending entry, for the untagged-envelope
scenario. -/
def w9Client : HttpClient :=
  { instanceId := "client_p",
    correlationManager :=
      { pendingRequests :=
          [("r9", { id := "r9", timestamp := 0, resolveCb := 20,
                    rejectCb := 21, timeoutSet := false })] } }

/-- Concrete untagged response envelope for id `r9`. -/
def w9Resp : MessageProtocol :=
  { id := "r9", type := "response", status := some 200 }

/-- Concrete client response whose body is `undefined`. -/
def w10Response : ClientHttpResponse :=
  { status := 200, statusText := "OK", headers := [], ok := true,
    url := "/u", body := .undef }

theorem clearRequest_disposed (m : CorrelationManager) (id : String) :
    (clearRequest m id).disposed = m.disposed := rfl

theorem mapGet_clearRequest_self (m : CorrelationManager) (id : String) :
    mapGet (clearRequest m id).pendingRequests id = none :=
  mapGet_mapErase_self m.pendingRequests id

theorem resolveRequest_not_pending (m : CorrelationManager) (id : String)
    (x : MessageProtocol) (hg : mapGet m.pendingRequests id = none) :
    resolveRequest m id x = (m, false, []) := by
  unfold resolveRequest
  cases hdisp : m.disposed <;> simp [hg]

theorem rejectRequest_not_pending (m : CorrelationManager) (id : String)
    (x : MessageProtocol) (hg : mapGet m.pendingRequests id = none) :
    rejectRequest m id x = (m, false, []) := by
  unfold rejectRequest
  cases hdisp : m.disposed <;> simp [hg]

/-- Claim C2: for a tracked correlation id, `resolveRequest` (and
symmetrically `rejectRequest`) removes the entry, cancels its timeout (a
timeout firing afterwards finds nothing and invokes no callback), invokes
its callback exactly once, and returns `true`; a second call for the same
id, or a call for an id that was never tracked, invokes no callback and
returns `false`. -/
theorem correlation_resolve_reject_exactly_once
    (m : CorrelationManager) (id other : String) (req : PendingRequest)
    (resp err x : MessageProtocol) (t : Int)
    (hd : m.disposed = false)
    (ht : mapGet m.pendingRequests id = some req)
    (ho : mapGet m.pendingRequests other = none) :
    resolveRequest m id resp =
      (clearRequest m id, true, [CbEvent.resolveCall req.resolveCb resp]) ∧
    rejectRequest m id err =
      (clearRequest m id, true, [CbEvent.rejectCall req.rejectCb err]) ∧
    mapGet (clearRequest m id).pendingRequests id = none ∧
    resolveRequest (clearRequest m id) id x = (clearRequest m id, false, []) ∧
    rejectRequest (clearRequest m id) id x = (clearRequest m id, false, []) ∧
    fireRequestTimeout (clearRequest m id) id t =
      (clearRequest m id, false, []) ∧
    resolveRequest m other x = (m, false, []) ∧
    rejectRequest m other x = (m, false, []) := by
  refine ⟨?_, ?_, mapGet_clearRequest_self m id, ?_, ?_, ?_, ?_, ?_⟩
  · simp [resolveRequest, hd, ht]
  · simp [rejectRequest, hd, ht]
  · exact resolveRequest_not_pending _ _ _ (mapGet_clearRequest_self m id)
  · exact rejectRequest_not_pending _ _ _ (mapGet_clearRequest_self m id)
  · exact rejectRequest_not_pending _ _ _ (mapGet_clearRequest_self m id)
  · exact resolveRequest_not_pending _ _ _ ho
  · exact rejectRequest_not_pending _ _ _ ho

/-- Witness for C2 at a concrete manager with one tracked id. -/
theorem correlation_resolve_reject_exactly_once_witness :
    resolveRequest wManager "r1" wResp =
      (clearRequest wManager "r1", true, [CbEvent.resolveCall 10 wResp]) ∧
    resolveRequest (clearRequest wManager "r1") "r1" wResp =
      (clearRequest wManager "r1", false, []) ∧
    fireRequestTimeout (clearRequest wManager "r1") "r1" 7 =
      (clearRequest wManager "r1", false, []) ∧
    resolveRequest wManager "zz" wResp = (wManager, false, []) := by
  have h := correlation_resolve_reject_exactly_once wManager "r1" "zz" wReq
    wResp wErr wResp 7 rfl (by simp [wManager, mapGet])
    (by simp [wManager, mapGet])
  exact ⟨h.1, h.2.2.2.1, h.2.2.2.2.2.1, h.2.2.2.2.2.2.1⟩

/-- Claim C3: registering a pending request with a positive timeout stores
a timer-carrying entry and fires no callback; if the id is still pending
when the timer fires, the timeout handler rejects it with the `Request
timeout` error of status 408 and removes it from the pending table, and a
`resolveRequest` arriving afterwards returns `false` and delivers
nothing. -/
theorem pending_timeout_rejects_then_resolve_dropped
    (m : CorrelationManager) (id : String) (rcb jcb : Nat)
    (T t0 t1 : Int) (resp : MessageProtocol)
    (hd : m.disposed = false) (hT : 0 < T) :
    addPendingRequest m id rcb jcb (some T) t0 =
      ({ m with pendingRequests := (mapSet m.pendingRequests id
          { id := id, timestamp := t0, resolveCb := rcb, rejectCb := jcb,
            timeoutSet := true }) }, []) ∧
    (requestTimeoutError id t1).error = some "Request timeout" ∧
    (requestTimeoutError id t1).status = some 408 ∧
    fireRequestTimeout (addPendingRequest m id rcb jcb (some T) t0).1 id t1 =
      (clearRequest (addPendingRequest m id rcb jcb (some T) t0).1 id, true,
       [CbEvent.rejectCall jcb (requestTimeoutError id t1)]) ∧
    mapGet
      (clearRequest (addPendingRequest m id rcb jcb (some T) t0).1 id).pendingRequests
      id = none ∧
    resolveRequest
      (clearRequest (addPendingRequest m id rcb jcb (some T) t0).1 id) id resp =
      (clearRequest (addPendingRequest m id rcb jcb (some T) t0).1 id,
       false, []) := by
  have hadd : addPendingRequest m id rcb jcb (some T) t0 =
      ({ m with pendingRequests := (mapSet m.pendingRequests id
          { id := id, timestamp := t0, resolveCb := rcb, rejectCb := jcb,
            timeoutSet := true }) }, []) := by
    simp [addPendingRequest, hd, hT]
  refine ⟨hadd, rfl, rfl, ?_, mapGet_clearRequest_self _ id, ?_⟩
  · rw [hadd]
    simp [fireRequestTimeout, rejectRequest, hd, mapGet_mapSet_self,
      clearRequest]
  · exact resolveRequest_not_pending _ _ _ (mapGet_clearRequest_self _ id)

/-- Witness for C3 at an empty manager, id `r1`, timeout 1000. -/
theorem pending_timeout_rejects_then_resolve_dropped_witness :
    0 < (1000 : Int) ∧
    fireRequestTimeout
      (addPendingRequest { } "r1" 10 11 (some 1000) 0).1 "r1" 1000 =
      (clearRequest (addPendingRequest { } "r1" 10 11 (some 1000) 0).1 "r1",
       true, [CbEvent.rejectCall 11 (requestTimeoutError "r1" 1000)]) ∧
    resolveRequest
      (clearRequest (addPendingRequest { } "r1" 10 11 (some 1000) 0).1 "r1")
      "r1" wResp =
      (clearRequest (addPendingRequest { } "r1" 10 11 (some 1000) 0).1 "r1",
       false, []) := by
  have h := pending_timeout_rejects_then_resolve_dropped { } "r1" 10 11
    1000 0 1000 wResp rfl (by decide)
  exact ⟨by decide, h.2.2.2.1, h.2.2.2.2.2⟩

theorem countP_eq_one_of_mem_nodup_map {α : Type} (f : α → Nat) (l : List α)
    (a : α) (hn : (l.map f).Nodup) (ha : a ∈ l) :
    l.countP (fun x => f x == f a) = 1 := by
  induction l with
  | nil => cases ha
  | cons b tl ih =>
      rw [List.map_cons, List.nodup_cons] at hn
      rw [List.countP_cons]
      rcases List.mem_cons.mp ha with rfl | hmem
      · have h0 : tl.countP (fun x => f x == f a) = 0 := by
          rw [List.countP_eq_zero]
          intro c hc hfc
          exact hn.1 ((beq_iff_eq.mp hfc) ▸ List.mem_map_of_mem f hc)
        simp [h0]
      · have hne : (f b == f a) = false := by
          rw [beq_eq_false_iff_ne]
          intro he
          exact hn.1 (he ▸ List.mem_map_of_mem f hmem)
        rw [hne, ih hn.2 hmem]
        simp

/-- Claim C5: on a live manager, `clearAllRequests` marks it disposed,
clears the pending table, and defers exactly one rejection per previously
pending entry, each carrying the `Connection closed` error of status 503
(exactly once per entry when the reject callbacks are distinct); a second
call is a no-op firing nothing. -/
theorem clearAllRequests_rejects_each_once_and_idempotent
    (m : CorrelationManager) (now now2 : Int)
    (hd : m.disposed = false)
    (hcb : (m.pendingRequests.map (fun p => p.2.rejectCb)).Nodup) :
    (clearAllRequests m now).1.disposed = true ∧
    (clearAllRequests m now).1.pendingRequests = [] ∧
    (clearAllRequests m now).2.length = m.pendingRequests.length ∧
    (∀ e ∈ (clearAllRequests m now).2, ∃ cb,
        e = CbEvent.rejectCall cb (connectionClosedError
          ((m.pendingRequests.map Prod.fst).getLastD "") now)) ∧
    (connectionClosedError ((m.pendingRequests.map Prod.fst).getLastD "")
        now).error = some "Connection closed" ∧
    (connectionClosedError ((m.pendingRequests.map Prod.fst).getLastD "")
        now).status = some 503 ∧
    (∀ p ∈ m.pendingRequests,
      (clearAllRequests m now).2.countP
        (fun e => match e with
          | CbEvent.rejectCall cb _ => cb == p.2.rejectCb
          | _ => false) = 1) ∧
    clearAllRequests (clearAllRequests m now).1 now2 =
      ((clearAllRequests m now).1, []) := by
  have hc : clearAllRequests m now =
      ({ m with disposed := true, pendingRequests := [] },
       m.pendingRequests.map (fun p => CbEvent.rejectCall p.2.rejectCb
         (connectionClosedError
           ((m.pendingRequests.map Prod.fst).getLastD "") now))) := by
    simp [clearAllRequests, hd]
  rw [hc]
  refine ⟨rfl, rfl, by simp, ?_, rfl, rfl, ?_, by simp [clearAllRequests]⟩
  · intro e he
    rcases List.mem_map.mp he with ⟨p, _, hpe⟩
    exact ⟨p.2.rejectCb, hpe.symm⟩
  · intro p hp
    rw [List.countP_map]
    have := countP_eq_one_of_mem_nodup_map (fun q => q.2.rejectCb)
      m.pendingRequests p hcb hp
    simpa [Function.comp] using this

/-- Witness for C5 at a concrete manager with two pending entries. -/
theorem clearAllRequests_rejects_each_once_and_idempotent_witness :
    (clearAllRequests w5Manager 3).1.disposed = true ∧
    (clearAllRequests w5Manager 3).1.pendingRequests = [] ∧
    (clearAllRequests w5Manager 3).2.length =
      w5Manager.pendingRequests.length ∧
    clearAllRequests (clearAllRequests w5Manager 3).1 4 =
      ((clearAllRequests w5Manager 3).1, []) := by
  have h := clearAllRequests_rejects_each_once_and_idempotent w5Manager 3 4
    rfl (by simp [w5Manager])
  exact ⟨h.1, h.2.1, h.2.2.1, h.2.2.2.2.2.2.2⟩

theorem srvEnd_finished (r : SrvResponse) (c : Option String) (t : Int)
    (ch : List MessageProtocol) (h : r.finished = true) :
    srvEnd r c t ch = (r, ch) := by
  simp [srvEnd, h]

/-- Claim C4: on a response adapter that is not yet finished, disposed or
sent, `end` posts exactly one response envelope on the channel and makes
the single transition to the finished state, leaving status and headers as
accumulated; every later `end` call, whatever its chunk, leaves the
adapter's state (status, headers, body buffer) and the channel exactly
unchanged. -/
theorem srvEnd_idempotent_single_envelope
    (r : SrvResponse) (chunk : Option String) (now : Int)
    (channel : List MessageProtocol)
    (calls : List (Option String × Int))
    (hf : r.finished = false) (hd : r.disposed = false)
    (hs : r.responseSent = false) :
    (srvEnd r chunk now channel).2 =
      channel ++ [srvResponseMessage (srvEnd r chunk now channel).1 now] ∧
    (srvResponseMessage (srvEnd r chunk now channel).1 now).type =
      "response" ∧
    (srvEnd r chunk now channel).1.finished = true ∧
    (srvEnd r chunk now channel).1.statusCode = r.statusCode ∧
    (srvEnd r chunk now channel).1.headers = r.headers ∧
    srvEndIter (srvEnd r chunk now channel) calls =
      srvEnd r chunk now channel := by
  have hfin : (srvEnd r chunk now channel).1.finished = true := by
    cases chunk <;> simp [srvEnd, hf, hd, hs]
  have hiter : ∀ (cs : List (Option String × Int))
      (p : SrvResponse × List MessageProtocol), p.1.finished = true →
      srvEndIter p cs = p := by
    intro cs
    induction cs with
    | nil => intro p _; rfl
    | cons c rest ih =>
        intro p hp
        have hstep : srvEnd p.1 c.1 c.2 p.2 = (p.1, p.2) :=
          srvEnd_finished _ _ _ _ hp
        have : srvEndIter p (c :: rest) = srvEndIter (p.1, p.2) rest := by
          simp [srvEndIter, List.foldl, hstep]
        rw [this]
        exact ih (p.1, p.2) hp
  refine ⟨?_, ?_, hfin, ?_, ?_, hiter calls _ hfin⟩
  · cases chunk <;> simp [srvEnd, hf, hd, hs]
  · cases chunk <;> simp [srvEnd, srvResponseMessage, hf, hd, hs]
  · cases chunk <;> simp [srvEnd, hf, hd, hs]
  · cases chunk <;> simp [srvEnd, hf, hd, hs]

/-- Witness for C4 at a concrete adapter with one buffered chunk and two
further `end` calls after the first. -/
theorem srvEnd_idempotent_single_envelope_witness :
    (srvEnd w4Response (some "!") 1 []).2 =
      [srvResponseMessage (srvEnd w4Response (some "!") 1 []).1 1] ∧
    (srvEnd w4Response (some "!") 1 []).1.finished = true ∧
    srvEndIter (srvEnd w4Response (some "!") 1 [])
      [(some "x", 5), (none, 6)] = srvEnd w4Response (some "!") 1 [] := by
  have h := srvEnd_idempotent_single_envelope w4Response (some "!") 1 []
    [(some "x", 5), (none, 6)] rfl rfl rfl
  exact ⟨h.1, h.2.2.1, h.2.2.2.2.2⟩

/-- Counterexample to claim C6 as stated: on an adapter whose headers were
sent but which is not disposed, `removeHeader` still deletes the named
header, so the headers map is not left unchanged. -/
theorem removeHeader_after_headersSent_mutates :
    c6Response.headersSent = true ∧
    c6Response.disposed = false ∧
    c6Response.headers = [("x-a", "1")] ∧
    (srvRemoveHeader c6Response "x-a").headers = [] ∧
    (srvRemoveHeader c6Response "x-a").headers ≠ c6Response.headers := by
  refine ⟨rfl, rfl, rfl, by decide, by decide⟩

/-- Claim C6 amended: once headers are sent or the adapter is disposed,
`setHeader` is a no-op that never throws; `removeHeader` is a no-op only
once the adapter is disposed — while not disposed it removes the named
header even after headers are sent. -/
theorem header_mutation_guards (r : SrvResponse) (name value : String) :
    (r.headersSent = true ∨ r.disposed = true →
      srvSetHeader r name value = r) ∧
    (r.disposed = true → srvRemoveHeader r name = r) ∧
    (r.disposed = false →
      (srvRemoveHeader r name).headers = mapErase r.headers (toLowerCase name)) := by
  refine ⟨?_, ?_, ?_⟩
  · rintro (h | h) <;> simp [srvSetHeader, h]
  · intro h
    simp [srvRemoveHeader, h]
  · intro h
    simp [srvRemoveHeader, h]

/-- Witness for the amended C6 at concrete adapters: headers-sent blocks
`setHeader`, disposal blocks `removeHeader`, and a live adapter's
`removeHeader` erases the lower-cased name. -/
theorem header_mutation_guards_witness :
    srvSetHeader c6Response "x-b" "2" = c6Response ∧
    srvRemoveHeader w6Disposed "x-a" = w6Disposed ∧
    (srvRemoveHeader c6Response "x-a").headers =
      mapErase c6Response.headers (toLowerCase "x-a") :=
  ⟨(header_mutation_guards c6Response "x-b" "2").1 (Or.inl rfl),
   (header_mutation_guards w6Disposed "x-a" "").2.1 rfl,
   (header_mutation_guards c6Response "x-a" "").2.2 rfl⟩

/-- Claim C7: finalizing a sendable adapter with `end(chunk)` posts an
envelope whose body is `_combineBody` of the buffered chunks plus the
trailing one; and `_combineBody` of a non-empty buffer is the `JSON.parse`
of the concatenation whenever that concatenation begins with a curly brace
or a bracket and parses successfully, and the raw concatenated string
otherwise (wrong leading character or parse failure). -/
theorem end_body_json_reinterpretation
    (r : SrvResponse) (chunk : String) (now : Int)
    (channel : List MessageProtocol)
    (chunks : List String) (v : JSVal)
    (hf : r.finished = false) (hd : r.disposed = false)
    (hs : r.responseSent = false) (hne : chunks ≠ []) :
    (srvEnd r (some chunk) now channel).2 =
      channel ++
        [srvResponseMessage (srvEnd r (some chunk) now channel).1 now] ∧
    (srvResponseMessage (srvEnd r (some chunk) now channel).1 now).body =
      combineBody (r.body ++ [chunk]) ∧
    ((strStartsWith (String.join chunks) "\x7b" ||
        strStartsWith (String.join chunks) "[") = true →
      (jsonParse (String.join chunks) = some v → combineBody chunks = v) ∧
      (jsonParse (String.join chunks) = none →
        combineBody chunks = .str (String.join chunks))) ∧
    ((strStartsWith (String.join chunks) "\x7b" ||
        strStartsWith (String.join chunks) "[") = false →
      combineBody chunks = .str (String.join chunks)) := by
  have hlen : ¬ (r.body ++ [chunk]).length = 0 := by simp
  have hlc : ¬ chunks.length = 0 := by
    simpa [List.length_eq_zero] using hne
  refine ⟨?_, ?_, ?_, ?_⟩
  · simp [srvEnd, hf, hd, hs]
  · simp [srvEnd, srvResponseMessage, hf, hd, hs, combineBody, hlen]
  · intro hstart
    refine ⟨?_, ?_⟩
    · intro hp
      simp [combineBody, hlc, hstart, hp]
    · intro hp
      simp [combineBody, hlc, hstart, hp]
  · intro hstart
    simp [combineBody, hlc, hstart]

/-- Witness for C7: `end('\x7b"a":1\x7d')` yields the parsed object
while a plain-text chunk yields the literal string, matching the posted
envelope body at a concrete adapter. -/
theorem end_body_json_reinterpretation_witness :
    combineBody ["\x7b\"a\":1\x7d"] = JSVal.obj [("a", JSVal.num 1)] ∧
    combineBody ["plain text"] = JSVal.str "plain text" ∧
    (srvResponseMessage
        (srvEnd w7Response (some "\x7b\"a\":1\x7d") 1 []).1 1).body =
      combineBody (w7Response.body ++ ["\x7b\"a\":1\x7d"]) := by
  have h := end_body_json_reinterpretation w7Response "\x7b\"a\":1\x7d" 1 []
    ["\x7b\"a\":1\x7d"] (JSVal.obj [("a", JSVal.num 1)]) rfl rfl rfl
    (by simp)
  have hjson : combineBody ["\x7b\"a\":1\x7d"] = JSVal.obj [("a", JSVal.num 1)] :=
    (h.2.2.1 rfl).1 rfl
  have h2 := end_body_json_reinterpretation w7Response "plain text" 1 []
    ["plain text"] JSVal.undef rfl rfl rfl (by simp)
  have htext : combineBody ["plain text"] = JSVal.str "plain text" := by
    have := h2.2.2.2 rfl
    simpa using this
  exact ⟨hjson, htext, h.2.1⟩

/-- Counterexample to claim C1 as stated: a well-formed request envelope
tagged with an instance id different from the server's own is not ignored —
the handler constructs the adapter pair, enlarges the in-flight response
set and emits the `request` event. -/
theorem server_processes_foreign_instance_request :
    isRequestMessage c1Request = true ∧
    c1Request.instanceId = some "other_server" ∧
    c1Server.instanceId = "server_self" ∧
    serverHandleMessage c1Server false c1Request =
      ({ c1Server with pendingResponses := ["req1"] },
       [ServerEvent.emitRequest "req1"]) ∧
    (serverHandleMessage c1Server false c1Request).1.pendingResponses ≠
      c1Server.pendingResponses := by
  refine ⟨rfl, rfl, rfl, by simp [serverHandleMessage, c1Server, c1Request,
    isRequestMessage], by simp [serverHandleMessage, c1Server, c1Request,
    isRequestMessage]⟩

/-- Claim C1 amended: the server's message handler never consults the
envelope's `instanceId`. A well-formed request received while the server
is listening, not disposed, not already dispatching, and not shadowed by a
different live registered server is processed — adapter pair constructed
and tracked, `request` event emitted — whatever instance id the envelope
carries; matching of instance ids happens only on the client, against the
id the server stamps on its responses. -/
theorem server_handler_ignores_request_instanceId
    (s : TransportServer) (m : MessageProtocol) (iid : Option String)
    (hl : s.messageHandlerLock = false) (hd : s.disposed = false)
    (hli : s.listening = true) (hreq : isRequestMessage m = true) :
    serverHandleMessage s false { m with instanceId := iid } =
      ({ s with pendingResponses := s.pendingResponses ++ [m.id] },
       [ServerEvent.emitRequest m.id]) := by
  have hreq2 : isRequestMessage { m with instanceId := iid } = true := by
    simpa [isRequestMessage] using hreq
  simp [serverHandleMessage, hl, hd, hli, hreq2]

/-- Witness for the amended C1: the concrete foreign-tagged request is
processed by the concrete server. -/
theorem server_handler_ignores_request_instanceId_witness :
    serverHandleMessage c1Server false
      { c1Request with instanceId := some "yet_another" } =
      ({ c1Server with pendingResponses := ["req1"] },
       [ServerEvent.emitRequest "req1"]) :=
  server_handler_ignores_request_instanceId c1Server c1Request
    (some "yet_another") rfl rfl rfl rfl

/-- Counterexample to claim C8 as stated: an envelope whose `instanceId`
is present but the empty string differs from the client's id, yet the
handler does not return early — the empty string is falsy in the
JavaScript guard, so on a primary client the envelope reaches the
Correlation Manager, the pending table changes and the tracked resolve
callback fires. -/
theorem client_forwards_empty_string_instanceId :
    c8Message.instanceId = some "" ∧
    c8Message.instanceId ≠ some c8Client.instanceId ∧
    clientHandleMessage c8Client true true c8Message =
      ({ c8Client with correlationManager :=
          { c8Client.correlationManager with pendingRequests := [] } },
       [CbEvent.resolveCall 0 c8Message]) ∧
    c8Client.correlationManager.pendingRequests ≠ [] := by
  refine ⟨rfl, by simp [c8Message, c8Client], ?_, by simp [c8Client]⟩
  simp [clientHandleMessage, c8Client, c8Message, truthyId,
    isResponseMessage, resolveRequest, mapGet, clearRequest, mapErase]

/-- Claim C8 amended: for every inbound envelope whose `instanceId` is
present, non-empty, and different from the client's own id, the message
handler returns without touching the Correlation Manager — client state
unchanged, no callback fired. An envelope carrying an empty-string
`instanceId` is instead treated as untagged (JavaScript falsiness). -/
theorem client_ignores_foreign_instance_envelope
    (c : HttpClient) (isPrimary primaryAlive : Bool) (m : MessageProtocol)
    (i : String) (hi : m.instanceId = some i) (hne : i ≠ "")
    (hdiff : i ≠ c.instanceId) :
    clientHandleMessage c isPrimary primaryAlive m = (c, []) := by
  cases hdisp : c.disposed with
  | true => simp [clientHandleMessage, hdisp]
  | false =>
      have hg : (truthyId m.instanceId &&
          m.instanceId != some c.instanceId) = true := by
        simp [truthyId, hi, hne, hdiff]
      simp [clientHandleMessage, hdisp, hg]

/-- Witness for the amended C8: a response tagged for `client_b` leaves
the `client_a` client untouched. -/
theorem client_ignores_foreign_instance_envelope_witness :
    w8Message.instanceId = some "client_b" ∧
    clientHandleMessage c8Client true true w8Message = (c8Client, []) :=
  ⟨rfl, client_ignores_foreign_instance_envelope c8Client true true
    w8Message "client_b" rfl (by decide) (by decide)⟩

/-- Claim C9: an inbound envelope with no `instanceId` is ignored by every
non-primary client as long as a live primary exists (state unchanged, no
callback), while the primary client forwards it to its Correlation
Manager — `resolveRequest` for response envelopes, `rejectRequest` for
error envelopes. -/
theorem untagged_envelope_primary_fallback
    (c : HttpClient) (m : MessageProtocol) (primaryAlive : Bool)
    (hu : m.instanceId = none) :
    clientHandleMessage c false true m = (c, []) ∧
    (c.disposed = false → isResponseMessage m = true →
      clientHandleMessage c true primaryAlive m =
        ({ c with correlationManager :=
            (resolveRequest c.correlationManager m.id m).1 },
         (resolveRequest c.correlationManager m.id m).2.2)) ∧
    (c.disposed = false → isErrorMessage m = true →
      clientHandleMessage c true primaryAlive m =
        ({ c with correlationManager :=
            (rejectRequest c.correlationManager m.id m).1 },
         (rejectRequest c.correlationManager m.id m).2.2)) := by
  refine ⟨?_, ?_, ?_⟩
  · cases hdisp : c.disposed with
    | true => simp [clientHandleMessage, hdisp]
    | false => simp [clientHandleMessage, hdisp, truthyId, hu]
  · intro hdisp hresp
    simp [clientHandleMessage, hdisp, truthyId, hu, hresp]
  · intro hdisp herr
    have hresp : isResponseMessage m = false := by
      have : m.type = "error" := by
        rcases Bool.and_eq_true _ _ |>.mp herr with ⟨h1, _⟩
        rcases Bool.and_eq_true _ _ |>.mp h1 with ⟨h2, _⟩
        simpa using h2
      simp [isResponseMessage, this]
    simp [clientHandleMessage, hdisp, truthyId, hu, hresp, herr]

/-- Witness for C9 at a concrete untagged response: the non-primary client
ignores it while the primary client resolves its pending entry. -/
theorem untagged_envelope_primary_fallback_witness :
    w9Resp.instanceId = none ∧
    clientHandleMessage w9Client false true w9Resp = (w9Client, []) ∧
    clientHandleMessage w9Client true true w9Resp =
      ({ w9Client with correlationManager :=
          (resolveRequest w9Client.correlationManager "r9" w9Resp).1 },
       (resolveRequest w9Client.correlationManager "r9" w9Resp).2.2) := by
  have h := untagged_envelope_primary_fallback w9Client w9Resp true rfl
  exact ⟨rfl, h.1, h.2.1 rfl rfl⟩

/-- Claim C10: on a client response whose stored body is `undefined` or
`null`, `json()` rejects with `Response body is empty` while `text()`
resolves to the empty string; both methods leave the response state — in
particular the stored body — unchanged. -/
theorem empty_body_json_rejects_text_empty
    (r : ClientHttpResponse)
    (h : r.body = JSVal.undef ∨ r.body = JSVal.jsNull) :
    clientJson r = (.thrown "Response body is empty", r) ∧
    clientText r = ("", r) ∧
    (clientJson r).2 = r ∧
    (clientText r).2 = r := by
  obtain ⟨st, stx, hd, ok, url, b⟩ := r
  rcases h with h | h <;> simp only at h <;> subst h <;>
    exact ⟨rfl, rfl, rfl, rfl⟩

/-- Witness for C10 at a concrete response with an `undefined` body. -/
theorem empty_body_json_rejects_text_empty_witness :
    clientJson w10Response = (.thrown "Response body is empty", w10Response) ∧
    clientText w10Response = ("", w10Response) :=
  ⟨(empty_body_json_rejects_text_empty w10Response (Or.inl rfl)).1,
   (empty_body_json_rejects_text_empty w10Response (Or.inl rfl)).2.1⟩

end VSCodeRest
